import Mathlib

/-!
Verification development for the screenshot streamer
(packages/modal-infra/src/sandbox/screenshot_streamer.py).

The Python module is shallowly embedded: each method of the
ScreenshotStreamer class becomes a pure Lean function.  Mutation of
`self` is modelled by explicit state passing over `RunState`; the
outcomes of network requests (httpx POST/GET results or raised
transport exceptions) are supplied by oracles of type `Nat -> AttemptResult`;
wall clock readings of `time.time() - start` are supplied by an oracle
`Nat -> Rat`.  Loops that run until an external flag flips are embedded
as fuel-indexed recursions returning `Option`, where `none` means the
fuel ran out before the loop exited.
-/

/-- Embeds `StreamerConfig` (screenshot_streamer.py, lines 32-45).
`interval` and `retry_delay` are Python floats holding small decimal
values; they are modelled as rationals. -/
structure StreamerConfig where
  target_url : String
  control_plane_url : String
  session_id : String
  auth_token : String
  interval : ℚ := 2
  viewport_width : ℕ := 1280
  viewport_height : ℕ := 720
  quality : ℕ := 80
  max_retries : ℕ := 3
  retry_delay : ℚ := 1
deriving DecidableEq

/-- The mutable fields of `ScreenshotStreamer` touched by the capture
path: `self.frame_count` (initialised to 0) and `self.last_frame_hash`
(initialised to None), lines 62-63. -/
structure RunState where
  frame_count : ℕ
  last_frame_hash : Option String
deriving DecidableEq, Repr

/-- Outcome of one HTTP request: either a response carrying a status
code, or a raised transport exception (the `except` branches). -/
inductive AttemptResult where
  | response (status : ℕ)
  | transportError
deriving DecidableEq, Repr

/-- The JSON body built in `_send_frame`, lines 183-192.  The
`timestamp` field (`time.time()`) is a wall-clock reading irrelevant to
every claim and is omitted from the embedding. -/
structure Payload where
  type_tag : String
  frameNumber : ℕ
  frameHash : String
  imageData : String
  imageType : String
  width : ℕ
  height : ℕ
deriving DecidableEq, Repr

/-- Observable actions of `_send_frame`: a POST of the payload on a
given attempt index together with the outcome of that request, and the
`asyncio.sleep(self.config.retry_delay)` call of line 214. -/
inductive SendEvent where
  | post (p : Payload) (attempt : ℕ) (result : AttemptResult)
  | sleepRetry
deriving DecidableEq, Repr

/-- Payload construction of `_send_frame` lines 183-192: `frameNumber`
is read from `self.frame_count` at call time. -/
def mkPayload (cfg : StreamerConfig) (st : RunState) (frame_data frame_hash : String) :
    Payload :=
  { type_tag := "screenshot_frame"
    frameNumber := st.frame_count
    frameHash := frame_hash
    imageData := frame_data
    imageType := "jpeg"
    width := cfg.viewport_width
    height := cfg.viewport_height }

/-- `response.status_code == 200` is the only success condition in
`_send_frame` (line 205); a transport exception is never a success. -/
def isSendSuccess : AttemptResult → Bool
  | AttemptResult.response s => s == 200
  | AttemptResult.transportError => false

/-- The retry loop body of `_send_frame`, lines 194-214, iterated over
a list of attempt indices (Python: `for attempt in range(max_retries)`).
On a 200 response the method returns; on any other status it falls
through to the next attempt with no delay; on a transport exception it
sleeps `retry_delay` first when `attempt < max_retries - 1`.  The
returned Bool is whether some attempt succeeded (the early `return` of
line 208); falling off the loop drops the frame. -/
def sendFrameAttempts (cfg : StreamerConfig) (p : Payload) (outcomes : ℕ → AttemptResult) :
    List ℕ → List SendEvent × Bool
  | [] => ([], false)
  | a :: rest =>
    match outcomes a with
    | AttemptResult.response s =>
      if s = 200 then ([SendEvent.post p a (AttemptResult.response s)], true)
      else
        let r := sendFrameAttempts cfg p outcomes rest
        (SendEvent.post p a (AttemptResult.response s) :: r.1, r.2)
    | AttemptResult.transportError =>
      let sleeps := if a < cfg.max_retries - 1 then [SendEvent.sleepRetry] else []
      let r := sendFrameAttempts cfg p outcomes rest
      (SendEvent.post p a AttemptResult.transportError :: (sleeps ++ r.1), r.2)

/-- Embeds `_send_frame` (lines 176-214).  The method is entered with
`self._http_client` set (it is created in `start` line 73 before any
frame is sent).  It reads `self.frame_count` to build the payload and
never assigns any field of `self`, so the state component of the result
is the input state.  The second component is the event trace, the third
whether the frame was delivered. -/
def sendFrame (cfg : StreamerConfig) (st : RunState) (frame_data frame_hash : String)
    (outcomes : ℕ → AttemptResult) : RunState × List SendEvent × Bool :=
  (st, sendFrameAttempts cfg (mkPayload cfg st frame_data frame_hash) outcomes
    (List.range cfg.max_retries))

/-- The two pure byte-level encoders used by `_capture_and_send`:
`hashlib.md5(bytes).hexdigest()[:16]` (line 161) and
`base64.b64encode(bytes).decode("ascii")` (line 171).  Both are
deterministic functions of the raw screenshot bytes; the embedding
abstracts over them, which is all any claim needs. -/
structure Codecs where
  md5_16 : List ℕ → String
  b64encode : List ℕ → String

/-- Embeds `_capture_and_send` (lines 142-174).  `page` is whether
`self.page` is set (line 144); `capture` is the screenshot result,
`none` when `self.page.screenshot` raised (the exception is caught at
lines 154-156 and the cycle abandoned).  On a fingerprint equal to
`self.last_frame_hash` the method returns before touching any state
(lines 164-165).  Otherwise it stores the new fingerprint, increments
`self.frame_count` (lines 167-168) and delegates to `_send_frame`. -/
def captureAndSend (cd : Codecs) (cfg : StreamerConfig) (page : Bool) (st : RunState)
    (capture : Option (List ℕ)) (outcomes : ℕ → AttemptResult) :
    RunState × List SendEvent :=
  match page, capture with
  | false, _ => (st, [])
  | true, none => (st, [])
  | true, some bytes =>
    let frame_hash := cd.md5_16 bytes
    if some frame_hash = st.last_frame_hash then (st, [])
    else
      let st1 : RunState := ⟨st.frame_count + 1, some frame_hash⟩
      let r := sendFrame cfg st1 (cd.b64encode bytes) frame_hash outcomes
      (r.1, r.2.1)

/-- One streaming cycle as seen by `_capture_loop`: the screenshot
result and the delivery outcome oracle for that cycle. -/
structure CycleInput where
  capture : Option (List ℕ)
  outcomes : ℕ → AttemptResult

/-- The cycles executed by `_capture_loop` while `self.running` stays
true (lines 132-140), with `self.page` set: each iteration runs
`_capture_and_send` on the next cycle input and threads the state. -/
def runCycles (cd : Codecs) (cfg : StreamerConfig) :
    RunState → List CycleInput → RunState × List SendEvent
  | st, [] => (st, [])
  | st, c :: cs =>
    let r := captureAndSend cd cfg true st c.capture c.outcomes
    let r2 := runCycles cd cfg r.1 cs
    (r2.1, r.2 ++ r2.2)

/-- Recogniser for POST events. -/
def isPost : SendEvent → Bool
  | SendEvent.post _ _ _ => true
  | SendEvent.sleepRetry => false

/-- Number of POST requests in a trace. -/
def postCount (evs : List SendEvent) : ℕ := evs.countP isPost

/-- The `frameNumber` fields of the payloads whose POST received a 200
response, in trace order: the delivered payloads. -/
def deliveredNumbers (evs : List SendEvent) : List ℕ :=
  evs.filterMap fun e =>
    match e with
    | SendEvent.post p _ (AttemptResult.response 200) => some p.frameNumber
    | _ => none

/-- The events one failed attempt `a` contributes to the trace of
`_send_frame`: its POST, then a `retry_delay` sleep exactly when the
attempt raised a transport error and `a < max_retries - 1`. -/
def attemptEvents (cfg : StreamerConfig) (p : Payload) (outcomes : ℕ → AttemptResult)
    (a : ℕ) : List SendEvent :=
  SendEvent.post p a (outcomes a) ::
    (match outcomes a with
     | AttemptResult.transportError =>
       if a < cfg.max_retries - 1 then [SendEvent.sleepRetry] else []
     | AttemptResult.response _ => [])

/-- Attempt `a` fails: its request did not return status 200. -/
def failing (outcomes : ℕ → AttemptResult) (a : ℕ) : Bool :=
  !(isSendSuccess (outcomes a))

/-- A probe of `_wait_for_target` succeeds when its GET returned a
status below 500 (line 122); a transport exception never does (the
`except` of lines 125-126 swallows it). -/
def probeAvailable : AttemptResult → Bool
  | AttemptResult.response s => s < 500
  | AttemptResult.transportError => false

/-- Environment of one `_wait_for_target` run: for loop iteration `i`,
the value of `time.time() - start` at its `while` check, the value of
`self.running` at its check, and the outcome of its GET. -/
structure ProbeEnv where
  elapsed : ℕ → ℚ
  running : ℕ → Bool
  probe : ℕ → AttemptResult

/-- Observable actions of `_wait_for_target`: the GET of iteration `i`
and the `asyncio.sleep(1.0)` of line 128 ending iteration `i`. -/
inductive WaitEvent where
  | probeAttempt (i : ℕ)
  | sleepOne (i : ℕ)
deriving DecidableEq, Repr

/-- The loop of `_wait_for_target` (lines 110-130) from iteration `i`,
fuel-indexed.  Per iteration, in source order: the `while` budget check,
the `self.running` check (returning False on a stop), the GET (a status
below 500 returns True; any other status or a transport exception falls
through), then a one second sleep.  Falling out of the `while` returns
False. -/
def waitGo (timeout : ℚ) (env : ProbeEnv) : ℕ → ℕ → Option (Bool × List WaitEvent)
  | _, 0 => none
  | i, fuel + 1 =>
    if env.elapsed i < timeout then
      if env.running i then
        if probeAvailable (env.probe i) then some (true, [WaitEvent.probeAttempt i])
        else
          match waitGo timeout env (i + 1) fuel with
          | none => none
          | some r => some (r.1, WaitEvent.probeAttempt i :: WaitEvent.sleepOne i :: r.2)
      else some (false, [])
    else some (false, [])

/-- `_wait_for_target` with its default `timeout` of 60.0 seconds, as
called from `start` line 76. -/
def waitForTarget (env : ProbeEnv) (fuel : ℕ) : Option (Bool × List WaitEvent) :=
  waitGo 60 env 0 fuel

/-- The checks of `_wait_for_target` that let iteration `j` reach its
GET: the budget is not exhausted and no stop was requested. -/
def passes60 (env : ProbeEnv) (j : ℕ) : Prop :=
  env.elapsed j < 60 ∧ env.running j = true

/-- Observable actions of one `_capture_loop` iteration: the
`_capture_and_send` call either returned (`cycleOk`) or raised and was
caught and logged by the `except` of lines 137-138 (`cycleError`), then
the inter-cycle `asyncio.sleep(self.config.interval)` of line 140. -/
inductive LoopEvent where
  | cycleOk (i : ℕ)
  | cycleError (i : ℕ)
  | sleepInterval (i : ℕ)
deriving DecidableEq, Repr

/-- The `while self.running` loop of `_capture_loop` (lines 132-140)
from iteration `i`, fuel-indexed.  `running i` is the value of
`self.running` at the check opening iteration `i`; `raises i` is
whether the cycle body propagated an exception (every such exception is
caught by the bare `except` and the loop continues). -/
def captureLoopGo (running raises : ℕ → Bool) : ℕ → ℕ → Option (List LoopEvent)
  | _, 0 => none
  | i, fuel + 1 =>
    if running i then
      match captureLoopGo running raises (i + 1) fuel with
      | none => none
      | some evs =>
        some ((if raises i then LoopEvent.cycleError i else LoopEvent.cycleOk i) ::
          LoopEvent.sleepInterval i :: evs)
    else some []

/-- Environment of one `start` run (lines 66-101): whether
`_wait_for_target` reported the target available, whether
`self.page.goto` succeeded (lines 90-95), and the capture loop
environment. -/
structure StartEnv where
  probeOk : Bool
  navOk : Bool
  running : ℕ → Bool
  raises : ℕ → Bool
  loopFuel : ℕ

/-- How `start` returned. -/
inductive StartExit where
  | probeTimeout
  | navFailure
  | loopDone
deriving DecidableEq, Repr

/-- Result of `start`: which exit path was taken, whether
`self._http_client.aclose()` ran before the method returned, and the
capture loop trace. -/
structure StartReturn where
  exit : StartExit
  clientClosed : Bool
  loopEvents : List LoopEvent
deriving DecidableEq, Repr

/-- Embeds `start` (lines 66-101).  The HTTP client is created at line
73.  When `_wait_for_target` returns False, the `return` of line 78
leaves the method before the `aclose` of lines 100-101.  When
`self.page.goto` raises, the `return` of line 95 sits inside the
`async with async_playwright()` block, which also precedes lines
100-101, so the client is not closed there either.  Only when
`_capture_loop` finishes does control reach lines 100-101 and close the
client.  `none` models a capture loop that outlives the fuel. -/
def start (env : StartEnv) : Option StartReturn :=
  if env.probeOk = false then some ⟨StartExit.probeTimeout, false, []⟩
  else if env.navOk = false then some ⟨StartExit.navFailure, false, []⟩
  else
    match captureLoopGo env.running env.raises 0 env.loopFuel with
    | none => none
    | some evs => some ⟨StartExit.loopDone, true, evs⟩

/-- Embeds `main` together with the `asyncio.run(main())` entry point
(lines 217-258).  `main` awaits `streamer.start()` and returns None on
every path; no caller inspects the result and `sys.exit` is never
invoked, so whenever the process terminates normally its exit code is
0, whichever way `start` returned. -/
def mainExitCode (env : StartEnv) : Option ℕ :=
  (start env).map fun _ => 0

/-- A concrete configuration with the module defaults (the CLI defaults
of lines 223-228 and the dataclass defaults of lines 40-45). -/
def cfgEx : StreamerConfig :=
  { target_url := "http://localhost:5173"
    control_plane_url := "https://cp.example"
    session_id := "abc123"
    auth_token := "xyz789" }

/-- The initial run state set up in `__init__`, lines 62-63. -/
def stEx : RunState := ⟨0, none⟩

/-- Concrete executable codecs for witnesses: a digest that is a
deterministic function of the bytes (what the dedup logic relies on). -/
def cdEx : Codecs :=
  ⟨fun b => String.mk (List.replicate b.length 'a'), fun _ => "img"⟩

/-- A concrete cycle whose delivery always answers 500. -/
def cEx : CycleInput := ⟨some [7], fun _ => AttemptResult.response 500⟩

/-- A concrete `start` environment in which the availability probe
timed out. -/
def envProbeFail : StartEnv := ⟨false, true, fun _ => false, fun _ => false, 1⟩

/-- A concrete `start` environment in which probing and navigation
succeed and the loop observes `self.running` false at once. -/
def envLoopOk : StartEnv := ⟨true, true, fun _ => false, fun _ => false, 1⟩

/-- A concrete probe environment whose first GET answers 200. -/
def envWaitEx : ProbeEnv := ⟨fun _ => 0, fun _ => true, fun _ => AttemptResult.response 200⟩

/-- Boolean check that every POST in a trace carries frame number `n`. -/
def postsNumbered (n : ℕ) (evs : List SendEvent) : Bool :=
  evs.all fun e =>
    match e with
    | SendEvent.post p _ _ => p.frameNumber == n
    | SendEvent.sleepRetry => true

/-- A concrete state whose stored fingerprint is the digest of `[7]`. -/
def stW : RunState := ⟨1, some (cdEx.md5_16 [7])⟩

/-- A concrete cycle capturing `[7]` with deliveries answering 200. -/
def c0W : CycleInput := ⟨some [7], fun _ => AttemptResult.response 200⟩

/-- A concrete two-cycle run with distinct captures, all deliveries
answering 200. -/
def csW3 : List CycleInput :=
  [⟨some [7], fun _ => AttemptResult.response 200⟩,
   ⟨some [7, 8], fun _ => AttemptResult.response 200⟩]

/-!  Helper lemmas about the send path.  -/

/-- Each failed attempt contributes exactly one POST to the trace. -/
theorem postCount_attemptEvents (cfg : StreamerConfig) (p : Payload)
    (outcomes : ℕ → AttemptResult) (a : ℕ) :
    postCount (attemptEvents cfg p outcomes a) = 1 := by
  unfold postCount attemptEvents
  cases h : outcomes a with
  | response s => simp [List.countP_cons, isPost]
  | transportError =>
    by_cases hlt : a < cfg.max_retries - 1 <;>
      simp [hlt, List.countP_cons, isPost]

/-- POST count over a concatenation of per-attempt chunks. -/
theorem postCount_flat (cfg : StreamerConfig) (p : Payload)
    (outcomes : ℕ → AttemptResult) :
    ∀ l : List ℕ, postCount (l.flatMap (attemptEvents cfg p outcomes)) = l.length := by
  intro l
  induction l with
  | nil => rfl
  | cons a t ih =>
    simp only [List.flatMap_cons, postCount, List.countP_append, List.length_cons]
    have h1 := postCount_attemptEvents cfg p outcomes a
    unfold postCount at h1 ih
    omega

/-- When every attempt in `l` fails, the retry loop runs all of them:
the trace is the concatenation of the per-attempt chunks and the frame
is not delivered. -/
theorem sendFrameAttempts_allFail (cfg : StreamerConfig) (p : Payload)
    (outcomes : ℕ → AttemptResult) :
    ∀ l : List ℕ, (∀ a ∈ l, isSendSuccess (outcomes a) = false) →
      sendFrameAttempts cfg p outcomes l = (l.flatMap (attemptEvents cfg p outcomes), false) := by
  intro l
  induction l with
  | nil => intro _; rfl
  | cons a t ih =>
    intro hall
    have ha : isSendSuccess (outcomes a) = false := hall a (List.mem_cons_self a t)
    have ht : ∀ x ∈ t, isSendSuccess (outcomes x) = false :=
      fun x hx => hall x (List.mem_cons_of_mem a hx)
    cases h : outcomes a with
    | response s =>
      have hs : ¬ s = 200 := by
        rw [h] at ha
        simpa [isSendSuccess] using ha
      simp only [sendFrameAttempts, h, if_neg hs, ih ht, List.flatMap_cons,
        attemptEvents, List.append_assoc]
      simp [attemptEvents, h]
    | transportError =>
      simp only [sendFrameAttempts, h, ih ht, List.flatMap_cons]
      simp [attemptEvents, h]

/-- Full characterisation of the retry loop trace: the failing prefix
of the attempt list contributes its per-attempt chunks, and the first
succeeding attempt (if any) contributes one final POST. -/
theorem sendFrameAttempts_split (cfg : StreamerConfig) (p : Payload)
    (outcomes : ℕ → AttemptResult) :
    ∀ l : List ℕ,
      sendFrameAttempts cfg p outcomes l =
        (match l.dropWhile (failing outcomes) with
         | [] => ((l.takeWhile (failing outcomes)).flatMap (attemptEvents cfg p outcomes),
             false)
         | k :: _ =>
             ((l.takeWhile (failing outcomes)).flatMap (attemptEvents cfg p outcomes) ++
               [SendEvent.post p k (outcomes k)], true)) := by
  intro l
  induction l with
  | nil => rfl
  | cons a t ih =>
    by_cases hf : failing outcomes a = true
    · have hs : isSendSuccess (outcomes a) = false := by
        unfold failing at hf
        cases hx : isSendSuccess (outcomes a)
        · rfl
        · rw [hx] at hf; contradiction
      rw [List.takeWhile_cons, List.dropWhile_cons, if_pos hf, if_pos hf]
      cases h : outcomes a with
      | response s =>
        have hs200 : ¬ s = 200 := by
          rw [h] at hs; simpa [isSendSuccess] using hs
        simp only [sendFrameAttempts, h, if_neg hs200, ih, List.flatMap_cons]
        cases hd : t.dropWhile (failing outcomes) with
        | nil => simp [attemptEvents, h]
        | cons k tl => simp [attemptEvents, h]
      | transportError =>
        simp only [sendFrameAttempts, h, ih, List.flatMap_cons]
        cases hd : t.dropWhile (failing outcomes) with
        | nil => simp [attemptEvents, h]
        | cons k tl => simp [attemptEvents, h]
    · have hs : isSendSuccess (outcomes a) = true := by
        unfold failing at hf
        cases hx : isSendSuccess (outcomes a)
        · rw [hx] at hf; contradiction
        · rfl
      have hfb : failing outcomes a = false := by
        unfold failing; rw [hs]; rfl
      obtain ⟨s, hresp, hs200⟩ : ∃ s, outcomes a = AttemptResult.response s ∧ s = 200 := by
        cases h : outcomes a with
        | response s =>
          rw [h] at hs
          exact ⟨s, rfl, by simpa [isSendSuccess] using hs⟩
        | transportError => rw [h] at hs; simp [isSendSuccess] at hs
      rw [List.takeWhile_cons, List.dropWhile_cons, if_neg hf, if_neg hf]
      subst hs200
      simp [sendFrameAttempts, hresp]

/-!  Helper lemmas about the capture path.  -/

/-- After a cycle that captured bytes `b`, the stored fingerprint is
the digest of `b`: either it already was (duplicate branch) or the new
branch just stored it, and `_send_frame` does not change it. -/
theorem captureAndSend_last_hash (cd : Codecs) (cfg : StreamerConfig) (st : RunState)
    (b : List ℕ) (outcomes : ℕ → AttemptResult) :
    ((captureAndSend cd cfg true st (some b) outcomes).1).last_frame_hash =
      some (cd.md5_16 b) := by
  unfold captureAndSend
  by_cases hd : some (cd.md5_16 b) = st.last_frame_hash
  · simp only [if_pos hd]
    exact hd.symm
  · simp only [if_neg hd, sendFrame]

/-- The frame counter never decreases across a cycle. -/
theorem captureAndSend_count_le (cd : Codecs) (cfg : StreamerConfig) (pg : Bool)
    (st : RunState) (cap : Option (List ℕ)) (outcomes : ℕ → AttemptResult) :
    st.frame_count ≤ (captureAndSend cd cfg pg st cap outcomes).1.frame_count := by
  unfold captureAndSend
  match pg, cap with
  | false, _ => exact le_refl _
  | true, none => exact le_refl _
  | true, some bytes =>
    by_cases hd : some (cd.md5_16 bytes) = st.last_frame_hash
    · simp only [if_pos hd]
      exact le_refl _
    · simp only [if_neg hd, sendFrame]
      exact Nat.le_succ _

/-- The frame counter never decreases across a run of cycles. -/
theorem runCycles_count_le (cd : Codecs) (cfg : StreamerConfig) :
    ∀ (cs : List CycleInput) (st : RunState),
      st.frame_count ≤ (runCycles cd cfg st cs).1.frame_count := by
  intro cs
  induction cs with
  | nil => intro st; exact le_refl _
  | cons c t ih =>
    intro st
    exact le_trans (captureAndSend_count_le cd cfg true st c.capture c.outcomes)
      (ih (captureAndSend cd cfg true st c.capture c.outcomes).1)

/-- Once the stored fingerprint equals the digest of `b`, a run whose
every cycle captures exactly `b` is a no-op. -/
theorem runCycles_same_capture (cd : Codecs) (cfg : StreamerConfig) (b : List ℕ) :
    ∀ (cs : List CycleInput) (st : RunState), (∀ c ∈ cs, c.capture = some b) →
      st.last_frame_hash = some (cd.md5_16 b) → runCycles cd cfg st cs = (st, []) := by
  intro cs
  induction cs with
  | nil => intro st _ _; rfl
  | cons c t ih =>
    intro st hall hlast
    have hc : c.capture = some b := hall c (List.mem_cons_self c t)
    have hnoop : captureAndSend cd cfg true st c.capture c.outcomes = (st, []) := by
      rw [hc]
      simp only [captureAndSend]
      rw [if_pos hlast.symm]
    show (let r := captureAndSend cd cfg true st c.capture c.outcomes
          let r2 := runCycles cd cfg r.1 t
          ((r2.1, r.2 ++ r2.2) : RunState × List SendEvent)) = (st, [])
    rw [hnoop]
    have ht := ih st (fun x hx => hall x (List.mem_cons_of_mem c hx)) hlast
    simp [ht]

/-- With `max_retries = 0`, `range(max_retries)` is empty and the send
trace of every cycle is empty. -/
theorem runCycles_no_posts (cd : Codecs) (cfg : StreamerConfig)
    (h0 : cfg.max_retries = 0) :
    ∀ (cs : List CycleInput) (st : RunState), (runCycles cd cfg st cs).2 = [] := by
  intro cs
  induction cs with
  | nil => intro st; rfl
  | cons c t ih =>
    intro st
    have hcap : (captureAndSend cd cfg true st c.capture c.outcomes).2 = [] := by
      unfold captureAndSend
      match c.capture with
      | none => rfl
      | some bytes =>
        by_cases hd : some (cd.md5_16 bytes) = st.last_frame_hash
        · simp only [if_pos hd]
        · simp only [if_neg hd, sendFrame, h0, List.range_zero, sendFrameAttempts]
    show ((captureAndSend cd cfg true st c.capture c.outcomes).2 ++
        (runCycles cd cfg (captureAndSend cd cfg true st c.capture c.outcomes).1 t).2) = []
    rw [hcap, ih]
    rfl

/-- When the first attempt of a delivery answers 200, the retry loop
makes exactly that one POST and returns success. -/
theorem sendFrameAttempts_first_ok (cfg : StreamerConfig) (p : Payload)
    (outcomes : ℕ → AttemptResult) (l : List ℕ) (a : ℕ)
    (ha : outcomes a = AttemptResult.response 200) :
    sendFrameAttempts cfg p outcomes (a :: l) =
      ([SendEvent.post p a (AttemptResult.response 200)], true) := by
  simp [sendFrameAttempts, ha]

/-- Invariant behind the gap-free numbering: starting from any state,
in a run whose every delivery answers 200 on its first attempt and with
at least one attempt allowed, the numbers of the delivered payloads are
exactly the consecutive block following the starting counter. -/
theorem runCycles_delivered (cd : Codecs) (cfg : StreamerConfig)
    (hm : 1 ≤ cfg.max_retries) :
    ∀ (cs : List CycleInput) (st : RunState),
      (∀ c ∈ cs, c.outcomes 0 = AttemptResult.response 200) →
      deliveredNumbers (runCycles cd cfg st cs).2 =
        List.range' (st.frame_count + 1)
          ((runCycles cd cfg st cs).1.frame_count - st.frame_count) := by
  intro cs
  induction cs with
  | nil =>
    intro st _
    simp [runCycles, deliveredNumbers]
  | cons c t ih =>
    intro st hall
    have hc : c.outcomes 0 = AttemptResult.response 200 := hall c (List.mem_cons_self c t)
    have ht : ∀ x ∈ t, x.outcomes 0 = AttemptResult.response 200 :=
      fun x hx => hall x (List.mem_cons_of_mem c hx)
    show deliveredNumbers ((captureAndSend cd cfg true st c.capture c.outcomes).2 ++
        (runCycles cd cfg (captureAndSend cd cfg true st c.capture c.outcomes).1 t).2) =
      List.range' (st.frame_count + 1)
        ((runCycles cd cfg (captureAndSend cd cfg true st c.capture c.outcomes).1 t).1.frame_count
          - st.frame_count)
    match hcap : c.capture with
    | none =>
      have h1 : captureAndSend cd cfg true st none c.outcomes = (st, []) := rfl
      rw [h1]
      simpa using ih st ht
    | some bytes =>
      by_cases hd : some (cd.md5_16 bytes) = st.last_frame_hash
      · have h1 : captureAndSend cd cfg true st (some bytes) c.outcomes = (st, []) := by
          simp only [captureAndSend]; rw [if_pos hd]
        rw [h1]
        simpa using ih st ht
      · obtain ⟨m, hmeq⟩ : ∃ m, cfg.max_retries = m + 1 :=
          ⟨cfg.max_retries - 1, by omega⟩
        set st1 : RunState := ⟨st.frame_count + 1, some (cd.md5_16 bytes)⟩ with hst1
        have hrange : List.range cfg.max_retries = 0 :: (List.range m).map Nat.succ := by
          rw [hmeq, List.range_succ_eq_map]
        have hsend : sendFrameAttempts cfg
            (mkPayload cfg st1 (cd.b64encode bytes) (cd.md5_16 bytes)) c.outcomes
            (List.range cfg.max_retries) =
            ([SendEvent.post (mkPayload cfg st1 (cd.b64encode bytes) (cd.md5_16 bytes)) 0
              (AttemptResult.response 200)], true) := by
          rw [hrange]
          exact sendFrameAttempts_first_ok cfg _ c.outcomes _ 0 hc
        have h1 : captureAndSend cd cfg true st (some bytes) c.outcomes =
            (st1, [SendEvent.post (mkPayload cfg st1 (cd.b64encode bytes) (cd.md5_16 bytes)) 0
              (AttemptResult.response 200)]) := by
          simp only [captureAndSend]
          rw [if_neg hd]
          simp only [sendFrame, hsend]
        rw [h1]
        have hle : st1.frame_count ≤ (runCycles cd cfg st1 t).1.frame_count :=
          runCycles_count_le cd cfg t st1
        have hnum : (runCycles cd cfg st1 t).1.frame_count - st.frame_count =
            ((runCycles cd cfg st1 t).1.frame_count - st1.frame_count) + 1 := by
          simp only [hst1] at hle ⊢
          omega
        rw [hnum]
        have hrec := ih st1 ht
        simp only [deliveredNumbers, List.filterMap_append] at hrec ⊢
        rw [hrec]
        have : List.range' (st.frame_count + 1)
            (((runCycles cd cfg st1 t).1.frame_count - st1.frame_count) + 1) =
            (st.frame_count + 1) :: List.range' (st.frame_count + 1 + 1)
              ((runCycles cd cfg st1 t).1.frame_count - st1.frame_count) := by
          rfl
        rw [this]
        simp [mkPayload, hst1]

/-!  Helper lemmas about the availability probe.  -/

/-- Full characterisation of one `_wait_for_target` run started at
iteration `i`: some number `n` of iterations pass their checks but
probe unsuccessfully, each contributing a GET followed by a one second
sleep; then either iteration `i + n` probes successfully (result True)
or its checks fail (result False). -/
theorem waitGo_spec (env : ProbeEnv) :
    ∀ (fuel i : ℕ) (b : Bool) (evs : List WaitEvent),
      waitGo 60 env i fuel = some (b, evs) →
      ∃ n, (∀ j, i ≤ j → j < i + n →
          passes60 env j ∧ probeAvailable (env.probe j) = false) ∧
        evs = (List.range' i n).flatMap
            (fun j => [WaitEvent.probeAttempt j, WaitEvent.sleepOne j]) ++
          (if b then [WaitEvent.probeAttempt (i + n)] else []) ∧
        (b = true → passes60 env (i + n) ∧ probeAvailable (env.probe (i + n)) = true) ∧
        (b = false → ¬ passes60 env (i + n)) := by
  intro fuel
  induction fuel with
  | zero =>
    intro i b evs h
    simp [waitGo] at h
  | succ f ih =>
    intro i b evs h
    by_cases he : env.elapsed i < 60
    · by_cases hr : env.running i = true
      · by_cases ha : probeAvailable (env.probe i) = true
        · have hsome : waitGo 60 env i (f + 1) =
              some (true, [WaitEvent.probeAttempt i]) := by
            unfold waitGo
            rw [if_pos he, if_pos hr, if_pos ha]
          rw [hsome] at h
          obtain ⟨hb, hevs⟩ : true = b ∧ [WaitEvent.probeAttempt i] = evs := by
            have := Option.some.inj h
            exact ⟨congrArg Prod.fst this, congrArg Prod.snd this⟩
          refine ⟨0, ?_, ?_, ?_, ?_⟩
          · intro j hj1 hj2; omega
          · rw [← hevs, ← hb]
            simp [List.range']
          · intro _
            exact ⟨⟨he, hr⟩, by simpa using ha⟩
          · intro hbf; rw [← hb] at hbf; contradiction
        · have hafalse : probeAvailable (env.probe i) = false := by
            cases hx : probeAvailable (env.probe i)
            · rfl
            · rw [hx] at ha; contradiction
          cases hrec : waitGo 60 env (i + 1) f with
          | none =>
            have hnone : waitGo 60 env i (f + 1) = none := by
              unfold waitGo
              rw [if_pos he, if_pos hr, if_neg ha, hrec]
            rw [hnone] at h
            contradiction
          | some r =>
            have hsome : waitGo 60 env i (f + 1) =
                some (r.1, WaitEvent.probeAttempt i :: WaitEvent.sleepOne i :: r.2) := by
              unfold waitGo
              rw [if_pos he, if_pos hr, if_neg ha, hrec]
            rw [hsome] at h
            have hb : r.1 = b := congrArg Prod.fst (Option.some.inj h)
            have hevs : WaitEvent.probeAttempt i :: WaitEvent.sleepOne i :: r.2 = evs :=
              congrArg Prod.snd (Option.some.inj h)
            obtain ⟨n, hpass, hevs2, htrue, hfalse⟩ := ih (i + 1) r.1 r.2 (by rw [hrec])
            refine ⟨n + 1, ?_, ?_, ?_, ?_⟩
            · intro j hj1 hj2
              by_cases hji : j = i
              · subst hji
                exact ⟨⟨he, hr⟩, hafalse⟩
              · exact hpass j (by omega) (by omega)
            · rw [← hevs, hevs2, ← hb]
              have hr' : List.range' i (n + 1) = i :: List.range' (i + 1) n := rfl
              rw [hr', List.flatMap_cons]
              have harith : i + 1 + n = i + (n + 1) := by omega
              rw [harith]
              simp
            · intro hbt
              rw [← hb] at hbt
              have := htrue hbt
              have harith : i + 1 + n = i + (n + 1) := by omega
              rwa [harith] at this
            · intro hbf
              rw [← hb] at hbf
              have := hfalse hbf
              have harith : i + 1 + n = i + (n + 1) := by omega
              rwa [harith] at this
      · have hsome : waitGo 60 env i (f + 1) = some (false, []) := by
          unfold waitGo
          rw [if_pos he, if_neg hr]
        rw [hsome] at h
        have hb : false = b := congrArg Prod.fst (Option.some.inj h)
        have hevs : ([] : List WaitEvent) = evs := congrArg Prod.snd (Option.some.inj h)
        refine ⟨0, ?_, ?_, ?_, ?_⟩
        · intro j hj1 hj2; omega
        · rw [← hevs, ← hb]
          simp [List.range']
        · intro hbt; rw [← hb] at hbt; contradiction
        · intro _
          intro hp
          exact hr (by simpa using hp.2)
    · have hsome : waitGo 60 env i (f + 1) = some (false, []) := by
        unfold waitGo
        rw [if_neg he]
      rw [hsome] at h
      have hb : false = b := congrArg Prod.fst (Option.some.inj h)
      have hevs : ([] : List WaitEvent) = evs := congrArg Prod.snd (Option.some.inj h)
      refine ⟨0, ?_, ?_, ?_, ?_⟩
      · intro j hj1 hj2; omega
      · rw [← hevs, ← hb]
        simp [List.range']
      · intro hbt; rw [← hb] at hbt; contradiction
      · intro _
        intro hp
        exact he (by simpa using hp.1)

/-!  Helper lemmas about the capture loop.  -/

/-- Whether and when `_capture_loop` exits does not depend on which
cycles raised: the bare `except` of lines 137-138 catches everything,
so the trace length (and in particular loop termination) is a function
of the `running` flag alone. -/
theorem captureLoopGo_length_indep (running raises raises2 : ℕ → Bool) :
    ∀ (fuel i : ℕ),
      Option.map List.length (captureLoopGo running raises i fuel) =
        Option.map List.length (captureLoopGo running raises2 i fuel) := by
  intro fuel
  induction fuel with
  | zero => intro i; rfl
  | succ f ih =>
    intro i
    by_cases hr : running i = true
    · have := ih (i + 1)
      cases h1 : captureLoopGo running raises (i + 1) f with
      | none =>
        cases h2 : captureLoopGo running raises2 (i + 1) f with
        | none =>
          unfold captureLoopGo
          rw [if_pos hr, if_pos hr, h1, h2]
        | some evs2 =>
          rw [h1, h2] at this
          simp at this
      | some evs =>
        cases h2 : captureLoopGo running raises2 (i + 1) f with
        | none =>
          rw [h1, h2] at this
          simp at this
        | some evs2 =>
          rw [h1, h2] at this
          simp at this
          unfold captureLoopGo
          rw [if_pos hr, if_pos hr, h1, h2]
          simp [this]
    · have hrf : running i = false := by
        cases hx : running i
        · rfl
        · rw [hx] at hr; contradiction
      unfold captureLoopGo
      rw [hrf]
      simp

/-!  Claim theorems.  -/

/-- C1 counterexample: the claim says an all-failing delivery makes
exactly `max_retries + 1` POST attempts.  It is false: with the default
`max_retries = 3` and every attempt answering 500, `_send_frame` makes
exactly 3 attempts, because `for attempt in range(max_retries)`
iterates `max_retries` times in total. -/
theorem sendFrame_attempt_count_not_succ :
    ¬ (∀ (cfg : StreamerConfig) (st : RunState) (d h : String)
        (outs : ℕ → AttemptResult),
        (∀ a, a < cfg.max_retries → isSendSuccess (outs a) = false) →
        postCount (sendFrame cfg st d h outs).2.1 = cfg.max_retries + 1) := by
  intro hall
  have h := hall cfgEx stEx "d" "h" (fun _ => AttemptResult.response 500)
    (fun _ _ => rfl)
  have hv : postCount (sendFrame cfgEx stEx "d" "h"
      (fun _ => AttemptResult.response 500)).2.1 = 3 := by rfl
  rw [hv] at h
  exact absurd h (by decide)

/-- C1 (amended): for every delivery in which all attempts fail,
`_send_frame` makes exactly `max_retries` POST attempts (not
`max_retries + 1`), the frame is dropped (not delivered), and the
capture loop proceeds: the cycles after any cycle still run and
contribute their own traces. -/
theorem sendFrame_allFail_attempt_count (cfg : StreamerConfig) (st st2 : RunState)
    (d h : String) (outs : ℕ → AttemptResult) (cd : Codecs) (c : CycleInput)
    (cs : List CycleInput)
    (hfail : ∀ a, a < cfg.max_retries → isSendSuccess (outs a) = false) :
    postCount (sendFrame cfg st d h outs).2.1 = cfg.max_retries ∧
    (sendFrame cfg st d h outs).2.2 = false ∧
    (runCycles cd cfg st2 (c :: cs)).2 =
      (captureAndSend cd cfg true st2 c.capture c.outcomes).2 ++
        (runCycles cd cfg (captureAndSend cd cfg true st2 c.capture c.outcomes).1 cs).2 := by
  have hfail2 : ∀ a ∈ List.range cfg.max_retries, isSendSuccess (outs a) = false :=
    fun a ha => hfail a (List.mem_range.mp ha)
  have hsend := sendFrameAttempts_allFail cfg (mkPayload cfg st d h) outs
    (List.range cfg.max_retries) hfail2
  refine ⟨?_, ?_, rfl⟩
  · show postCount (sendFrameAttempts cfg (mkPayload cfg st d h) outs
        (List.range cfg.max_retries)).1 = cfg.max_retries
    rw [hsend]
    rw [postCount_flat cfg (mkPayload cfg st d h) outs (List.range cfg.max_retries)]
    exact List.length_range cfg.max_retries
  · show (sendFrameAttempts cfg (mkPayload cfg st d h) outs
        (List.range cfg.max_retries)).2 = false
    rw [hsend]

/-- Witness for the amended C1 at a concrete all-failing delivery. -/
theorem sendFrame_allFail_attempt_count_witness :
    postCount (sendFrame cfgEx stEx "d" "h" (fun _ => AttemptResult.response 500)).2.1 =
      cfgEx.max_retries ∧
    (sendFrame cfgEx stEx "d" "h" (fun _ => AttemptResult.response 500)).2.2 = false ∧
    (runCycles cdEx cfgEx stEx (cEx :: [])).2 =
      (captureAndSend cdEx cfgEx true stEx cEx.capture cEx.outcomes).2 ++
        (runCycles cdEx cfgEx
          (captureAndSend cdEx cfgEx true stEx cEx.capture cEx.outcomes).1 []).2 :=
  sendFrame_allFail_attempt_count cfgEx stEx stEx "d" "h"
    (fun _ => AttemptResult.response 500) cdEx cEx [] (fun _ _ => rfl)

/-- C5 counterexample: the claim says the client waits `retry_delay`
between every two consecutive attempts for the same frame, whichever
way the earlier attempt failed.  It is false: with `max_retries = 2`
and both attempts answering 503 (a non-200 status), the trace is two
consecutive POSTs and contains no retry sleep at all, because the sleep
of line 214 sits only in the `except` branch. -/
theorem consecutive_attempts_without_delay :
    (sendFrame { cfgEx with max_retries := 2 } stEx "d" "h"
        (fun _ => AttemptResult.response 503)).2.1 =
      [SendEvent.post (mkPayload { cfgEx with max_retries := 2 } stEx "d" "h") 0
          (AttemptResult.response 503),
        SendEvent.post (mkPayload { cfgEx with max_retries := 2 } stEx "d" "h") 1
          (AttemptResult.response 503)] ∧
    SendEvent.sleepRetry ∉ (sendFrame { cfgEx with max_retries := 2 } stEx "d" "h"
        (fun _ => AttemptResult.response 503)).2.1 := by
  have h1 : (sendFrame { cfgEx with max_retries := 2 } stEx "d" "h"
      (fun _ => AttemptResult.response 503)).2.1 =
      [SendEvent.post (mkPayload { cfgEx with max_retries := 2 } stEx "d" "h") 0
          (AttemptResult.response 503),
        SendEvent.post (mkPayload { cfgEx with max_retries := 2 } stEx "d" "h") 1
          (AttemptResult.response 503)] := rfl
  refine ⟨h1, ?_⟩
  rw [h1]
  intro hmem
  rcases List.mem_cons.mp hmem with hx | hx
  · exact SendEvent.noConfusion hx
  · rcases List.mem_cons.mp hx with hy | hy
    · exact SendEvent.noConfusion hy
    · exact absurd hy (List.not_mem_nil _)

/-- C5 (amended): the full trace of `_send_frame` is, for each failed
attempt before the first success, one POST followed by a `retry_delay`
sleep exactly when that attempt raised a transport error and was not
the final allowed attempt, then one successful POST if any attempt
succeeded; in particular after a non-200 response the next attempt
begins with no delay, and no sleep follows the final attempt. -/
theorem retry_delay_only_on_transport_error (cfg : StreamerConfig) (st : RunState)
    (d h : String) (outs : ℕ → AttemptResult) (a : ℕ) :
    (sendFrame cfg st d h outs).2.1 =
      (match (List.range cfg.max_retries).dropWhile (failing outs) with
       | [] => ((List.range cfg.max_retries).takeWhile (failing outs)).flatMap
           (attemptEvents cfg (mkPayload cfg st d h) outs)
       | k :: _ =>
           ((List.range cfg.max_retries).takeWhile (failing outs)).flatMap
             (attemptEvents cfg (mkPayload cfg st d h) outs) ++
             [SendEvent.post (mkPayload cfg st d h) k (outs k)]) ∧
    (SendEvent.sleepRetry ∈ attemptEvents cfg (mkPayload cfg st d h) outs a ↔
      outs a = AttemptResult.transportError ∧ a < cfg.max_retries - 1) := by
  constructor
  · have hs := sendFrameAttempts_split cfg (mkPayload cfg st d h) outs
      (List.range cfg.max_retries)
    show (sendFrameAttempts cfg (mkPayload cfg st d h) outs
        (List.range cfg.max_retries)).1 = _
    rw [hs]
    cases hd : (List.range cfg.max_retries).dropWhile (failing outs) <;> simp
  · cases hout : outs a with
    | response s => simp [attemptEvents, hout]
    | transportError =>
      by_cases hlt : a < cfg.max_retries - 1
      · simp [attemptEvents, hout, hlt]
      · simp [attemptEvents, hout, hlt]

/-- C10: with `max_retries = 0`, a frame judged new still consumes a
sequence number and updates the stored fingerprint, but
`range(max_retries)` is empty, so zero POST attempts are made: the
frame is silently dropped, never delivered and never retried. -/
theorem max_retries_zero_drops_frame (cd : Codecs) (cfg : StreamerConfig)
    (st : RunState) (b : List ℕ) (d h : String) (outs : ℕ → AttemptResult)
    (h0 : cfg.max_retries = 0)
    (hnew : ¬ some (cd.md5_16 b) = st.last_frame_hash) :
    captureAndSend cd cfg true st (some b) outs =
      (⟨st.frame_count + 1, some (cd.md5_16 b)⟩, []) ∧
    sendFrame cfg st d h outs = (st, [], false) := by
  constructor
  · simp only [captureAndSend]
    rw [if_neg hnew]
    simp only [sendFrame, h0, List.range_zero, sendFrameAttempts]
  · simp only [sendFrame, h0, List.range_zero, sendFrameAttempts]

/-- Witness for C10 at a concrete new frame under `max_retries = 0`. -/
theorem max_retries_zero_drops_frame_witness :
    captureAndSend cdEx { cfgEx with max_retries := 0 } true stEx (some [7])
        (fun _ => AttemptResult.response 200) =
      (⟨stEx.frame_count + 1, some (cdEx.md5_16 [7])⟩, []) ∧
    sendFrame { cfgEx with max_retries := 0 } stEx "d" "h"
        (fun _ => AttemptResult.response 200) = (stEx, [], false) :=
  max_retries_zero_drops_frame cdEx { cfgEx with max_retries := 0 } stEx [7] "d" "h"
    (fun _ => AttemptResult.response 200) rfl (by simp [cdEx, stEx])

/-- Every POST emitted by one `_send_frame` call carries the frame
number the payload was built with. -/
theorem postsNumbered_sendFrameAttempts (cfg : StreamerConfig) (p : Payload)
    (outs : ℕ → AttemptResult) :
    ∀ l, postsNumbered p.frameNumber (sendFrameAttempts cfg p outs l).1 = true := by
  intro l
  induction l with
  | nil => rfl
  | cons a t ih =>
    cases hout : outs a with
    | response s =>
      by_cases hs : s = 200
      · subst hs
        simp [sendFrameAttempts, hout, postsNumbered]
      · simp only [sendFrameAttempts, hout, if_neg hs]
        simp [postsNumbered] at ih ⊢
        exact ih
    | transportError =>
      by_cases hlt : a < cfg.max_retries - 1
      · simp only [sendFrameAttempts, hout, if_pos hlt]
        simp [postsNumbered] at ih ⊢
        exact ih
      · simp only [sendFrameAttempts, hout, if_neg hlt]
        simp [postsNumbered] at ih ⊢
        exact ih

/-- C2: a capture whose fingerprint equals the stored previous
fingerprint is a complete no-op: the frame counter is untouched (no
sequence number consumed) and no delivery is attempted; consequently in
any run whose every cycle captures the same bytes, only the first cycle
contributes anything, whatever each delivery outcome was. -/
theorem dedup_cycle_noop (cd : Codecs) (cfg : StreamerConfig) (st st2 : RunState)
    (b : List ℕ) (outs : ℕ → AttemptResult) (c0 : CycleInput) (cs : List CycleInput)
    (hprev : st.last_frame_hash = some (cd.md5_16 b))
    (hc0 : c0.capture = some b)
    (hcs : ∀ c ∈ cs, c.capture = some b) :
    captureAndSend cd cfg true st (some b) outs = (st, []) ∧
    runCycles cd cfg st2 (c0 :: cs) =
      captureAndSend cd cfg true st2 (some b) c0.outcomes := by
  constructor
  · simp only [captureAndSend]
    rw [if_pos hprev.symm]
  · have hexp : runCycles cd cfg st2 (c0 :: cs) =
        ((runCycles cd cfg (captureAndSend cd cfg true st2 c0.capture c0.outcomes).1 cs).1,
         (captureAndSend cd cfg true st2 c0.capture c0.outcomes).2 ++
           (runCycles cd cfg (captureAndSend cd cfg true st2 c0.capture c0.outcomes).1 cs).2) :=
      rfl
    rw [hexp, hc0]
    have hafter := captureAndSend_last_hash cd cfg st2 b c0.outcomes
    have hrest := runCycles_same_capture cd cfg b cs
      (captureAndSend cd cfg true st2 (some b) c0.outcomes).1 hcs hafter
    rw [hrest]
    simp

/-- Witness for C2: a duplicate capture from a state already holding
its digest, and a two-cycle identical run. -/
theorem dedup_cycle_noop_witness :
    captureAndSend cdEx cfgEx true stW (some [7])
        (fun _ => AttemptResult.response 200) = (stW, []) ∧
    runCycles cdEx cfgEx stEx (c0W :: [cEx]) =
      captureAndSend cdEx cfgEx true stEx (some [7]) c0W.outcomes :=
  dedup_cycle_noop cdEx cfgEx stW stEx [7] (fun _ => AttemptResult.response 200) c0W [cEx]
    rfl rfl
    (by
      intro c hc
      rw [List.mem_singleton] at hc
      subst hc
      rfl)

/-- C3: in a run from the initial state in which every delivery answers
200 on its first attempt, the delivered frameNumber values are exactly
1, 2, ..., k: strictly increasing, gap-free, starting at 1. -/
theorem delivered_frameNumbers_consecutive (cd : Codecs) (cfg : StreamerConfig)
    (cs : List CycleInput)
    (hok : ∀ c ∈ cs, c.outcomes 0 = AttemptResult.response 200) :
    deliveredNumbers (runCycles cd cfg ⟨0, none⟩ cs).2 =
      List.range' 1 (deliveredNumbers (runCycles cd cfg ⟨0, none⟩ cs).2).length := by
  rcases Nat.eq_zero_or_pos cfg.max_retries with h0 | hm
  · rw [runCycles_no_posts cd cfg h0 cs ⟨0, none⟩]
    rfl
  · have hinv := runCycles_delivered cd cfg hm cs ⟨0, none⟩ hok
    rw [hinv]
    simp [List.length_range']

/-- Witness for C3: two distinct frames, both delivered first try. -/
theorem delivered_frameNumbers_consecutive_witness :
    deliveredNumbers (runCycles cdEx cfgEx ⟨0, none⟩ csW3).2 =
      List.range' 1 (deliveredNumbers (runCycles cdEx cfgEx ⟨0, none⟩ csW3).2).length :=
  delivered_frameNumbers_consecutive cdEx cfgEx csW3
    (by
      intro c hc
      rcases List.mem_cons.mp hc with hx | hx
      · subst hx; rfl
      · rw [List.mem_singleton] at hx
        subst hx
        rfl)

/-- C4: `_send_frame` leaves `frame_count` and `last_frame_hash`
unchanged whatever the delivery outcome; hence after a cycle whose
delivery was wholly abandoned, the consumed number stays consumed: a
byte-identical capture is still suppressed, and the next different
frame to reach delivery is POSTed with the strictly higher number
(leaving a gap at the abandoned number). -/
theorem sendFrame_state_pure_and_number_skipped (cd : Codecs) (cfg : StreamerConfig)
    (st : RunState) (b1 b2 : List ℕ) (d h : String)
    (outs outs1 outs2 outs3 : ℕ → AttemptResult)
    (hnew1 : ¬ some (cd.md5_16 b1) = st.last_frame_hash)
    (hne : ¬ cd.md5_16 b2 = cd.md5_16 b1) :
    (sendFrame cfg st d h outs).1 = st ∧
    (captureAndSend cd cfg true st (some b1) outs1).1 =
      ⟨st.frame_count + 1, some (cd.md5_16 b1)⟩ ∧
    captureAndSend cd cfg true (⟨st.frame_count + 1, some (cd.md5_16 b1)⟩ : RunState)
        (some b1) outs2 =
      (⟨st.frame_count + 1, some (cd.md5_16 b1)⟩, []) ∧
    postsNumbered (st.frame_count + 2)
      (captureAndSend cd cfg true (⟨st.frame_count + 1, some (cd.md5_16 b1)⟩ : RunState)
        (some b2) outs3).2 = true := by
  refine ⟨rfl, ?_, ?_, ?_⟩
  · simp only [captureAndSend]
    rw [if_neg hnew1]
    rfl
  · simp only [captureAndSend]
    simp
  · simp only [captureAndSend]
    have hne2 : ¬ some (cd.md5_16 b2) =
        (⟨st.frame_count + 1, some (cd.md5_16 b1)⟩ : RunState).last_frame_hash := by
      simpa using hne
    rw [if_neg hne2]
    exact postsNumbered_sendFrameAttempts cfg _ outs3 _

/-- Witness for C4 with two distinct concrete frames and all-failing
deliveries. -/
theorem sendFrame_state_pure_and_number_skipped_witness :
    (sendFrame cfgEx stEx "d" "h" (fun _ => AttemptResult.response 500)).1 = stEx ∧
    (captureAndSend cdEx cfgEx true stEx (some [7])
        (fun _ => AttemptResult.response 500)).1 =
      ⟨stEx.frame_count + 1, some (cdEx.md5_16 [7])⟩ ∧
    captureAndSend cdEx cfgEx true
        (⟨stEx.frame_count + 1, some (cdEx.md5_16 [7])⟩ : RunState) (some [7])
        (fun _ => AttemptResult.response 500) =
      (⟨stEx.frame_count + 1, some (cdEx.md5_16 [7])⟩, []) ∧
    postsNumbered (stEx.frame_count + 2)
      (captureAndSend cdEx cfgEx true
        (⟨stEx.frame_count + 1, some (cdEx.md5_16 [7])⟩ : RunState) (some [7, 8])
        (fun _ => AttemptResult.response 500)).2 = true :=
  sendFrame_state_pure_and_number_skipped cdEx cfgEx stEx [7] [7, 8] "d" "h"
    (fun _ => AttemptResult.response 500) (fun _ => AttemptResult.response 500)
    (fun _ => AttemptResult.response 500) (fun _ => AttemptResult.response 500)
    (by simp [stEx]) (by decide)

/-- C6: `_wait_for_target` returns True exactly when some issued probe
(within the 60 second budget, no stop requested, all earlier probes
unsuccessful) observed a status below 500; its trace is one GET plus a
one second sleep per unsuccessful iteration, ending in the successful
GET when the result is True; a transport error merely continues the
loop with the same sleep (it is never propagated: the embedding always
yields a normal Boolean); and a stop requested during probing yields
False. -/
theorem wait_for_target_spec (env : ProbeEnv) (fuel : ℕ) (b : Bool)
    (evs : List WaitEvent) (h : waitForTarget env fuel = some (b, evs)) :
    (b = true ↔ ∃ m, (∀ j, j < m → passes60 env j ∧ probeAvailable (env.probe j) = false) ∧
        passes60 env m ∧ probeAvailable (env.probe m) = true) ∧
    (∃ n, (∀ j, j < n → passes60 env j ∧ probeAvailable (env.probe j) = false) ∧
        evs = (List.range' 0 n).flatMap
            (fun j => [WaitEvent.probeAttempt j, WaitEvent.sleepOne j]) ++
          (if b then [WaitEvent.probeAttempt n] else []) ∧
        (b = false → ¬ passes60 env n)) ∧
    (∀ i f2, passes60 env i → env.probe i = AttemptResult.transportError →
        waitGo 60 env i (f2 + 1) =
          Option.map (fun r => (r.1, WaitEvent.probeAttempt i :: WaitEvent.sleepOne i :: r.2))
            (waitGo 60 env (i + 1) f2)) ∧
    (∀ m, (∀ j, j < m → passes60 env j ∧ probeAvailable (env.probe j) = false) →
        env.elapsed m < 60 → env.running m = false → b = false) := by
  obtain ⟨n, hpass, hevs, htrue, hfalse⟩ := waitGo_spec env fuel 0 b evs h
  have hpass0 : ∀ j, j < n → passes60 env j ∧ probeAvailable (env.probe j) = false :=
    fun j hj => hpass j (Nat.zero_le j) (by omega)
  have hn0 : (0 : ℕ) + n = n := by omega
  rw [hn0] at hevs htrue hfalse
  refine ⟨?_, ⟨n, hpass0, hevs, hfalse⟩, ?_, ?_⟩
  · constructor
    · intro hb
      exact ⟨n, hpass0, (htrue hb).1, (htrue hb).2⟩
    · rintro ⟨m, hmpass, hmp, hma⟩
      cases hb : b with
      | true => rfl
      | false =>
        exfalso
        have hnp := hfalse hb
        rcases lt_trichotomy m n with hlt | heq | hgt
        · have hav := (hpass0 m hlt).2
          rw [hav] at hma
          exact Bool.noConfusion hma
        · subst heq
          exact hnp hmp
        · exact hnp (hmpass n hgt).1
  · intro i f2 hp ht
    have ha : probeAvailable (env.probe i) = false := by rw [ht]; rfl
    simp only [waitGo]
    rw [if_pos hp.1, if_pos hp.2, ha]
    cases hrec : waitGo 60 env (i + 1) f2 <;> simp [hrec]
  · intro m hmpass he hr
    cases hb : b with
    | false => rfl
    | true =>
      exfalso
      obtain ⟨hpn, han⟩ := htrue hb
      rcases lt_trichotomy m n with hlt | heq | hgt
      · have h2 := (hpass0 m hlt).1.2
        rw [hr] at h2
        exact Bool.noConfusion h2
      · subst heq
        have h2 := hpn.2
        rw [hr] at h2
        exact Bool.noConfusion h2
      · have h2 := (hmpass n hgt).2
        rw [h2] at han
        exact Bool.noConfusion han

/-- Witness for C6: the target answers 200 immediately. -/
theorem wait_for_target_spec_witness :
    (true = true ↔ ∃ m, (∀ j, j < m →
          passes60 envWaitEx j ∧ probeAvailable (envWaitEx.probe j) = false) ∧
        passes60 envWaitEx m ∧ probeAvailable (envWaitEx.probe m) = true) ∧
    (∃ n, (∀ j, j < n → passes60 envWaitEx j ∧ probeAvailable (envWaitEx.probe j) = false) ∧
        [WaitEvent.probeAttempt 0] = (List.range' 0 n).flatMap
            (fun j => [WaitEvent.probeAttempt j, WaitEvent.sleepOne j]) ++
          (if true then [WaitEvent.probeAttempt n] else []) ∧
        (true = false → ¬ passes60 envWaitEx n)) ∧
    (∀ i f2, passes60 envWaitEx i → envWaitEx.probe i = AttemptResult.transportError →
        waitGo 60 envWaitEx i (f2 + 1) =
          Option.map (fun r => (r.1, WaitEvent.probeAttempt i :: WaitEvent.sleepOne i :: r.2))
            (waitGo 60 envWaitEx (i + 1) f2)) ∧
    (∀ m, (∀ j, j < m → passes60 envWaitEx j ∧ probeAvailable (envWaitEx.probe j) = false) →
        envWaitEx.elapsed m < 60 → envWaitEx.running m = false → true = false) :=
  wait_for_target_spec envWaitEx 1 true [WaitEvent.probeAttempt 0] rfl

/-- C7: every exception raised inside a streaming cycle is caught by
the bare catch of `_capture_loop`: the loop has the same extent
whatever the cycles raised, a raising cycle merely logs, sleeps the
interval and the loop proceeds to the next iteration, and the only
early exits of `start` are probe timeout and navigation failure. -/
theorem per_cycle_errors_nonfatal (running raises raises2 : ℕ → Bool) (i fuel : ℕ)
    (env : StartEnv) (r : StartReturn)
    (hrun : running i = true) (hs : start env = some r) :
    Option.map List.length (captureLoopGo running raises i fuel) =
      Option.map List.length (captureLoopGo running raises2 i fuel) ∧
    captureLoopGo running raises i (fuel + 1) =
      Option.map (fun evs =>
          (if raises i then LoopEvent.cycleError i else LoopEvent.cycleOk i) ::
            LoopEvent.sleepInterval i :: evs)
        (captureLoopGo running raises (i + 1) fuel) ∧
    ((r.exit = StartExit.probeTimeout ∨ r.exit = StartExit.navFailure) ↔
      (env.probeOk = false ∨ env.navOk = false)) := by
  refine ⟨captureLoopGo_length_indep running raises raises2 fuel i, ?_, ?_⟩
  · simp only [captureLoopGo]
    rw [if_pos hrun]
    cases hrec : captureLoopGo running raises (i + 1) fuel <;> simp [hrec]
  · unfold start at hs
    by_cases hp : env.probeOk = false
    · rw [if_pos hp] at hs
      have hr2 := Option.some.inj hs
      subst hr2
      simp [hp]
    · rw [if_neg hp] at hs
      by_cases hn : env.navOk = false
      · rw [if_pos hn] at hs
        have hr2 := Option.some.inj hs
        subst hr2
        simp [hn]
      · rw [if_neg hn] at hs
        cases hl : captureLoopGo env.running env.raises 0 env.loopFuel with
        | none =>
          rw [hl] at hs
          exact absurd hs (by simp)
        | some evs =>
          rw [hl] at hs
          have hr2 := Option.some.inj hs
          subst hr2
          simp [hp, hn]

/-- Witness for C7: a concrete raising cycle and a concrete run that
reached the loop. -/
theorem per_cycle_errors_nonfatal_witness :
    Option.map List.length (captureLoopGo (fun _ => true) (fun _ => true) 0 0) =
      Option.map List.length (captureLoopGo (fun _ => true) (fun _ => false) 0 0) ∧
    captureLoopGo (fun _ => true) (fun _ => true) 0 (0 + 1) =
      Option.map (fun evs =>
          (if (fun _ : ℕ => true) 0 then LoopEvent.cycleError 0 else LoopEvent.cycleOk 0) ::
            LoopEvent.sleepInterval 0 :: evs)
        (captureLoopGo (fun _ => true) (fun _ => true) (0 + 1) 0) ∧
    (((⟨StartExit.loopDone, true, []⟩ : StartReturn).exit = StartExit.probeTimeout ∨
        (⟨StartExit.loopDone, true, []⟩ : StartReturn).exit = StartExit.navFailure) ↔
      (envLoopOk.probeOk = false ∨ envLoopOk.navOk = false)) :=
  per_cycle_errors_nonfatal (fun _ => true) (fun _ => true) (fun _ => false) 0 0 envLoopOk
    ⟨StartExit.loopDone, true, []⟩ rfl rfl

/-- C8: when availability probing times out before any frame is ever
sent, `start` merely returns (line 78) and `main` returns None, so the
process terminates with exit code 0 - not the non-zero code the claim
requires.  Evaluation of the embedding at that failing input. -/
theorem main_exits_zero_on_probe_timeout :
    mainExitCode envProbeFail = some 0 := rfl

/-- C9 counterexample: the claim says the outbound HTTP client is
closed before `start` returns on every exit path.  It is false: on the
probe-timeout path the `return` of line 78 skips the `aclose` of lines
100-101. -/
theorem http_client_not_closed_on_probe_timeout :
    ¬ (∀ (env : StartEnv) (r : StartReturn),
        start env = some r → r.clientClosed = true) := by
  intro hall
  have h := hall envProbeFail ⟨StartExit.probeTimeout, false, []⟩ rfl
  exact Bool.noConfusion h

/-- C9 (amended): the HTTP client is closed before `start` returns
exactly on the normal loop-termination path; the probe-timeout and
navigation-failure exits return without closing it. -/
theorem http_client_closed_iff_loopDone (env : StartEnv) (r : StartReturn)
    (hs : start env = some r) :
    r.clientClosed = true ↔ r.exit = StartExit.loopDone := by
  unfold start at hs
  by_cases hp : env.probeOk = false
  · rw [if_pos hp] at hs
    have hr2 := Option.some.inj hs
    subst hr2
    constructor
    · intro hc; exact Bool.noConfusion hc
    · intro he; exact StartExit.noConfusion he
  · rw [if_neg hp] at hs
    by_cases hn : env.navOk = false
    · rw [if_pos hn] at hs
      have hr2 := Option.some.inj hs
      subst hr2
      constructor
      · intro hc; exact Bool.noConfusion hc
      · intro he; exact StartExit.noConfusion he
    · rw [if_neg hn] at hs
      cases hl : captureLoopGo env.running env.raises 0 env.loopFuel with
      | none =>
        rw [hl] at hs
        exact absurd hs (by simp)
      | some evs =>
        rw [hl] at hs
        have hr2 := Option.some.inj hs
        subst hr2
        simp

/-- Witness for the amended C9 on the probe-timeout path. -/
theorem http_client_closed_iff_loopDone_witness :
    ((⟨StartExit.probeTimeout, false, []⟩ : StartReturn).clientClosed = true ↔
      (⟨StartExit.probeTimeout, false, []⟩ : StartReturn).exit = StartExit.loopDone) :=
  http_client_closed_iff_loopDone envProbeFail ⟨StartExit.probeTimeout, false, []⟩ rfl
